import Mathlib

/-!
Verification of the starknet-react hooks library: a shallow embedding of the
query/mutation caching layer and of the hook adapters found in the repository
(`useContractWrite` with its `mutationKey`/`mutationFn`, `useSwitchNetwork`,
`useBalance`), together with spec-modelled definitions for the query cache,
retry policy and mutation runner whose implementation lives in the wrapped
data-fetching library rather than in this repository's sources.
-/

/-- A Starknet `Call` object: a single smart-contract invocation request. -/
structure Call where
  contractAddress : String
  entrypoint : String
  calldata : List String
deriving DecidableEq, Repr

/-- Transaction options (`InvocationsDetails` in the SDK). -/
structure InvocationsDetails where
  maxFee : Option Nat
  nonce : Option Nat
  version : Option Nat
deriving DecidableEq, Repr

/-- Result of `account.execute`: the submitted transaction hash. -/
structure InvokeFunctionResponse where
  transaction_hash : String
deriving DecidableEq, Repr

/-- The SDK account interface as used by `useContractWrite`: an address plus
the `execute` capability, modelled as a function producing the SDK response. -/
structure AccountInterface where
  address : String
  execute : List Call → Option (List String) → Option InvocationsDetails → InvokeFunctionResponse

/-- A record of one `account.execute` network call: the arguments it was
issued with.  `mutationFn` is embedded as returning the list of such events it
caused, so that "no network call" and "exactly one network call" are
statements about this trace. -/
structure ExecuteEvent where
  calls : List Call
  abis : Option (List String)
  options : Option InvocationsDetails

/-- Embedding of `mutationFn` from
`src/packages/core/src/connectors/index.ts` (useContractWrite):

```
return async function () {
  if (!account) throw new Error("account is required");
  if (!calls || calls.length === 0) throw new Error("calls are required");
  return await account?.execute(calls, abis, options);
};
```

The returned pair is (trace of `account.execute` calls issued, outcome):
a thrown `Error` becomes `Except.error` with the same message. -/
def mutationFn (account : Option AccountInterface) (calls : Option (List Call))
    (abis : Option (List String)) (options : Option InvocationsDetails) :
    List ExecuteEvent × Except String InvokeFunctionResponse :=
  match account with
  | none => ([], .error ("account is required"))
  | some acc =>
    match calls with
    | none => ([], .error ("calls are required"))
    | some cs =>
      if cs.length = 0 then ([], .error ("calls are required"))
      else ([⟨cs, abis, options⟩], .ok (acc.execute cs abis options))

/-- One element of the mutation key built by `useContractWrite`. -/
structure MutationKeyEntry where
  entity : String
  account : Option AccountInterface
  calls : Option (List Call)
  abis : Option (List String)
  options : Option InvocationsDetails

/-- Embedding of `mutationKey` from
`src/packages/core/src/connectors/index.ts`:

```
return [{ entity: "contractWrite", account, calls, abis, options }] as const;
```
-/
def mutationKey (account : Option AccountInterface) (calls : Option (List Call))
    (abis : Option (List String)) (options : Option InvocationsDetails) :
    List MutationKeyEntry :=
  [⟨"contractWrite", account, calls, abis, options⟩]

/-! ## Query cache (spec-modelled)

The query layer (`getOrFetch`, request deduplication, completion ordering) is
implemented by the wrapped data-fetching library, whose code is not part of
this repository's sources; only calls to it appear under `src/`.  The
definitions below are modelled from the spec (§3, §4.1, §5, §8). -/

/-- Query lifecycle status (spec §3, QueryEntry). -/
inductive QueryStatus where
  | idle
  | loading
  | success
  | error
deriving DecidableEq, Repr

/-- Modelled from the spec: a QueryEntry of the query cache (§3) —
cached data, error, status, plus the identifier of the most recently issued
fetch for the key and the in-flight flag used for deduplication. -/
structure QueryEntry (α : Type) where
  data : Option α
  error : Option String
  status : QueryStatus
  latestFetchId : Option Nat
  inFlight : Bool
deriving Repr

/-- Modelled from the spec: the process-wide query cache state (§3, §4.1) —
entries keyed by RequestKey (keys here are strings), a monotone counter
assigning issuance-ordered identifiers to fetches, and a log of every network
fetch issued (most recent first). -/
structure QueryCache (α : Type) where
  entries : String → Option (QueryEntry α)
  nextFetchId : Nat
  fetchLog : List (String × Nat)

/-- The entry a key starts from when first observed. -/
def emptyEntry {α : Type} : QueryEntry α :=
  { data := none, error := none, status := .idle, latestFetchId := none, inFlight := false }

/-- Number of network fetches issued so far for a key. -/
def fetchCount {α : Type} (s : QueryCache α) (key : String) : Nat :=
  (s.fetchLog.filter (fun p => p.1 = key)).length

/-- The cached data an observer of `key` reads.  Every observer of a key reads
the same shared entry, so the observer identifier is irrelevant. -/
def observerRead {α : Type} (s : QueryCache α) (key : String) (_observer : Nat) : Option α :=
  match s.entries key with
  | none => none
  | some e => e.data

/-- Modelled from the spec: issue a network fetch for `key` (§4.1, §5) —
record it in the fetch log under a fresh issuance identifier, mark the entry
in-flight with that identifier as the latest, and move an entry without data
to `loading` (data already present is kept: stale-while-revalidate). -/
def issueFetch {α : Type} (s : QueryCache α) (key : String) : QueryCache α :=
  let e := (s.entries key).getD emptyEntry
  let e2 : QueryEntry α :=
    { e with
      status := if e.data.isSome then e.status else .loading,
      latestFetchId := some s.nextFetchId,
      inFlight := true }
  { entries := fun k => if k = key then some e2 else s.entries k,
    nextFetchId := s.nextFetchId + 1,
    fetchLog := (key, s.nextFetchId) :: s.fetchLog }

/-- Modelled from the spec: whether `getOrFetch` must schedule a fetch for
`key` (§4.1) — the entry is absent, or it is stale (not `success`) and no
fetch is already in flight for it. -/
def needsFetch {α : Type} (s : QueryCache α) (key : String) : Bool :=
  match s.entries key with
  | none => true
  | some e => !e.inFlight && !(e.status = .success)

/-- Modelled from the spec: `getOrFetch(key, …)` (§4.1) — if the entry is
stale or absent it schedules exactly one fetch; overlapping calls with the
same key share the in-flight request (request deduplication). -/
def getOrFetch {α : Type} (s : QueryCache α) (key : String) : QueryCache α :=
  if needsFetch s key then issueFetch s key else s

/-- Modelled from the spec: manual `refetch()` (§4.1) — forces a new fetch
bypassing freshness checks. -/
def refetch {α : Type} (s : QueryCache α) (key : String) : QueryCache α :=
  issueFetch s key

/-- Modelled from the spec: apply the completion of the fetch with issuance
identifier `fid` for `key` (§5) — the result is applied only when `fid` is
still the most recently issued fetch for that key; a late-arriving response
from a superseded fetch is discarded. -/
def complete {α : Type} (s : QueryCache α) (key : String) (fid : Nat)
    (result : Except String α) : QueryCache α :=
  match s.entries key with
  | none => s
  | some e =>
    if e.latestFetchId = some fid then
      let e2 : QueryEntry α :=
        match result with
        | .ok v => { e with data := some v, error := none, status := .success, inFlight := false }
        | .error msg => { e with error := some msg, status := .error, inFlight := false }
      { s with entries := fun k => if k = key then some e2 else s.entries k }
    else s

/-! ## Retry policy (spec-modelled)

The retry-on-error behaviour (`options.retry`) is implemented by the wrapped
data-fetching library; only the flag being set appears under `src/`.  The
definitions below are modelled from the spec (§4.1, §7). -/

/-- The error taxonomy of spec §7 for fetch outcomes. -/
inductive FetchError where
  | network
  | notFound
  | rejected
deriving DecidableEq, Repr

/-- Modelled from the spec (§7): NetworkError and NotFoundError are
transient and retried per policy; RejectedError is terminal. -/
def retryable : FetchError → Bool
  | .network => true
  | .notFound => true
  | .rejected => false

/-- Modelled from the spec (§4.1): the exponential backoff delay, in
milliseconds, waited after the failed attempt with index `n` (0-based):
1s, 2s, 4s, …, capped at 30s. -/
def backoffDelay (n : Nat) : Nat :=
  min (1000 * 2 ^ n) 30000

/-- Modelled from the spec (§4.1, §7): run a fetch with the retry policy.
`responses n` is the outcome of attempt `n`; `fuel` bounds the number of
retries still allowed; `attempt` is the index of the attempt about to run;
`delays` accumulates (in order) the backoff delay waited before each retry.
Returns (final outcome, total attempts made, delays waited).  When `retryOn`
is false, or the error is not retryable, or the attempt bound is exhausted,
the entry settles into the error state. -/
def runRetry {α : Type} (retryOn : Bool) (responses : Nat → Except FetchError α) :
    Nat → Nat → List Nat → Except FetchError α × Nat × List Nat
  | fuel, attempt, delays =>
    match responses attempt, fuel with
    | .ok v, _ => (.ok v, attempt + 1, delays.reverse)
    | .error e, 0 => (.error e, attempt + 1, delays.reverse)
    | .error e, fuel' + 1 =>
      if retryOn && retryable e then
        runRetry retryOn responses fuel' (attempt + 1) (backoffDelay attempt :: delays)
      else (.error e, attempt + 1, delays.reverse)

/-- Modelled from the spec (§4.1): a fetch with retry makes at most
`maxAttempts` attempts: the first attempt plus at most `maxAttempts - 1`
retries. -/
def fetchWithRetry {α : Type} (retryOn : Bool) (maxAttempts : Nat)
    (responses : Nat → Except FetchError α) : Except FetchError α × Nat × List Nat :=
  runRetry retryOn responses (maxAttempts - 1) 0 []

/-! ## Mutation runner state (spec-modelled)

`useMutation`/`reset` are implemented by the wrapped data-fetching library;
`useContractWrite` only re-exposes them.  Modelled from the spec (§3, §4.2). -/

/-- Mutation lifecycle status (spec §3, MutationInvocation). -/
inductive MutationStatus where
  | idle
  | loading
  | success
  | error
  | paused
deriving DecidableEq, Repr

/-- Modelled from the spec: the observable state of a MutationInvocation
(§3) — status plus optional data, error and the variables of the call. -/
structure MutationState (α : Type) where
  status : MutationStatus
  data : Option α
  error : Option String
  vars : Option (List Call)
deriving Repr

/-- Modelled from the spec (§4.2): `reset()` returns the invocation to idle
and clears data and error. -/
def MutationState.reset {α : Type} (_s : MutationState α) : MutationState α :=
  { status := .idle, data := none, error := none, vars := none }

/-! ## Connector capability set and `useSwitchNetwork` -/

/-- Connector-level failures (spec §7). -/
inductive ConnectorError where
  | unsupportedOperation
  | userRejected
deriving DecidableEq, Repr

/-- The connector capability set (spec §3).  The concrete connector classes
(`base`, `injected`) are not under the sources; per the spec, a connector
either supports network switching or not. -/
structure Connector where
  id : String
  name : String
  supportsSwitchNetwork : Bool
deriving Repr

/-- Modelled from the spec (§4.4, §9): `switchNetwork` is delegated to the
connector and fails with an explicit UnsupportedOperationError if the
connector does not implement it, rather than being silently absent. -/
def Connector.switchNetwork (c : Connector) (_chainId : String) : Except ConnectorError Unit :=
  if c.supportsSwitchNetwork then .ok () else .error .unsupportedOperation

/-- Embedding of `useSwitchNetwork` from
`src/packages/core/src/connectors/index.ts`:

```
const switchNetwork = connector !== undefined ? connector.switchNetwork : undefined
return { switchNetwork }
```
-/
def useSwitchNetwork (connector : Option Connector) :
    Option (String → Except ConnectorError Unit) :=
  match connector with
  | some c => some (fun chainId => c.switchNetwork chainId)
  | none => none

/-! ## Read-style hooks: `useContractRead` guard and `useBalance` -/

/-- The arguments `useBalance` passes to `useContractRead`
(`src/unnamed/part_003`): contract address, ABI, entrypoint name, call
arguments and the watch flag.  Call arguments are optional because the
caller may supply an address that is not yet available. -/
structure ContractReadArgs where
  address : String
  abi : String
  functionName : String
  args : List (Option String)
  watch : Bool
deriving Repr

/-- The projection of a query entry a read-style hook returns. -/
structure ContractReadResult (α : Type) where
  data : Option α
  status : QueryStatus
  fetchIssued : Bool
deriving Repr

/-- Whether all required call arguments of a contract read are available. -/
def readInputsPresent (a : ContractReadArgs) : Bool :=
  a.args.all (fun x => x.isSome)

/-- Modelled from the spec (§4.1 enabled/guard, §4.5): `useContractRead`
(its implementation, `./call`, is not under the sources) — when a required
input is absent no fetch is issued and the status remains idle; otherwise the
fetch runs through the query layer. -/
def useContractRead {α : Type} (a : ContractReadArgs) (fetch : ContractReadArgs → α) :
    ContractReadResult α :=
  if readInputsPresent a then
    { data := some (fetch a), status := .success, fetchIssued := true }
  else
    { data := none, status := .idle, fetchIssued := false }

/-- The provider library handle returned by `useStarknet`. -/
structure StarknetLibrary where
  chainId : String
deriving Repr

/-- Embedding of the argument object `useBalance` builds for
`useContractRead` (`src/unnamed/part_003`):

```
useContractRead({
  address: token ?? ethByChainId(library.chainId),
  abi: compiledErc20.abi,
  functionName: 'balanceOf',
  args: [address],
  watch,
})
```

`ethByChainId` is imported from a module not under the sources, so it is
passed explicitly; the `watch` parameter defaults to `false` as in
`{ address, token, watch = false }`. -/
def useBalanceReadArgs (ethByChainId : String → String) (library : StarknetLibrary)
    (address : Option String) (token : Option String) (watch : Bool := false) :
    ContractReadArgs :=
  { address := token.getD (ethByChainId library.chainId),
    abi := "compiledErc20.abi",
    functionName := "balanceOf",
    args := [address],
    watch := watch }

/-- Embedding of `useBalance` (`src/unnamed/part_003`): builds the read
arguments and delegates to `useContractRead`. -/
def useBalance {α : Type} (ethByChainId : String → String) (library : StarknetLibrary)
    (address : Option String) (token : Option String)
    (fetch : ContractReadArgs → α) (watch : Bool := false) : ContractReadResult α :=
  useContractRead (useBalanceReadArgs ethByChainId library address token watch) fetch

/-! ## Further spec-modelled pieces and sample values used by the theorems -/

/-- Modelled from the spec (§4.2, §7): a settled mutation outcome updates the
invocation's observable data/error/status fields — every failure path updates
them, no error is swallowed. -/
def applyMutationOutcome {α : Type} (s : MutationState α) :
    Except String α → MutationState α
  | .ok v => { s with status := .success, data := some v, error := none }
  | .error msg => { s with status := .error, error := some msg }

/-- A sample account used to instantiate theorems at concrete inputs. -/
def sampleAccount : AccountInterface :=
  { address := "0x1",
    execute := fun _ _ _ => { transaction_hash := "0xABC" } }

/-- A sample call list used to instantiate theorems at concrete inputs. -/
def sampleCalls : List Call :=
  [{ contractAddress := "0x49d", entrypoint := "transfer", calldata := ["0x2", "0x1"] }]

/-- An empty query cache used to instantiate theorems at concrete inputs. -/
def sampleCache : QueryCache Nat :=
  { entries := fun _ => none, nextFetchId := 0, fetchLog := [] }

/-- A sample request key. -/
def sampleKey : String := "balanceOf:0x1"

/-- A sample chain identifier. -/
def sampleChainId : String := "SN_GOERLI"

/-- A response schedule whose first attempt is rejected. -/
def rejectedResponses : Nat → Except FetchError Nat :=
  fun _ => .error .rejected

/-- A response schedule with two transient failures then success. -/
def transientResponses : Nat → Except FetchError Nat :=
  fun n => if n = 0 then .error .network else if n = 1 then .error .notFound else .ok 42

/-! ## Theorems -/

/-- C1: a `write`/`writeAsync` invocation with no active account, or with a
missing or empty call list, issues no `account.execute` network call, fails
with a descriptive (non-empty) error message, and the error lands in the
mutation state's error/status fields. -/
theorem contractWrite_fails_fast (account : Option AccountInterface)
    (calls : Option (List Call)) (abis : Option (List String))
    (options : Option InvocationsDetails)
    (h : account = none ∨ calls = none ∨ calls = some []) :
    (mutationFn account calls abis options).1 = [] ∧
    ∃ msg, (mutationFn account calls abis options).2 = .error msg ∧ msg ≠ "" ∧
      ∀ st : MutationState InvokeFunctionResponse,
        (applyMutationOutcome st (mutationFn account calls abis options).2).status = .error ∧
        (applyMutationOutcome st (mutationFn account calls abis options).2).error = some msg := by
  rcases h with h | h | h
  · subst h
    exact ⟨rfl, "account is required", rfl, by decide, fun st => ⟨rfl, rfl⟩⟩
  · subst h
    cases account with
    | none => exact ⟨rfl, "account is required", rfl, by decide, fun st => ⟨rfl, rfl⟩⟩
    | some acc => exact ⟨rfl, "calls are required", rfl, by decide, fun st => ⟨rfl, rfl⟩⟩
  · subst h
    cases account with
    | none => exact ⟨rfl, "account is required", rfl, by decide, fun st => ⟨rfl, rfl⟩⟩
    | some acc => exact ⟨rfl, "calls are required", rfl, by decide, fun st => ⟨rfl, rfl⟩⟩

/-- Witness for C1 at a concrete input: no account, non-empty calls. -/
theorem contractWrite_fails_fast_witness :
    (none = (none : Option AccountInterface) ∨ some sampleCalls = none ∨
      some sampleCalls = some []) ∧
    ((mutationFn none (some sampleCalls) none none).1 = [] ∧
      ∃ msg, (mutationFn none (some sampleCalls) none none).2 = .error msg ∧ msg ≠ "" ∧
        ∀ st : MutationState InvokeFunctionResponse,
          (applyMutationOutcome st (mutationFn none (some sampleCalls) none none).2).status
            = .error ∧
          (applyMutationOutcome st (mutationFn none (some sampleCalls) none none).2).error
            = some msg) :=
  ⟨Or.inl rfl, contractWrite_fails_fast none (some sampleCalls) none none (Or.inl rfl)⟩

/-- C4: with an active account and a non-empty call list, one invocation of
the mutation issues exactly one `account.execute(calls, abis, options)` call
and returns its result; two invocations each contribute their own execute
call (no deduplication between mutation calls). -/
theorem contractWrite_executes_once (acc : AccountInterface) (cs : List Call)
    (abis : Option (List String)) (options : Option InvocationsDetails)
    (h : cs ≠ []) :
    mutationFn (some acc) (some cs) abis options =
      ([⟨cs, abis, options⟩], .ok (acc.execute cs abis options)) ∧
    ((mutationFn (some acc) (some cs) abis options).1 ++
      (mutationFn (some acc) (some cs) abis options).1).length = 2 := by
  have hlen : ¬cs.length = 0 := fun hz => h (List.length_eq_zero.mp hz)
  constructor
  · simp [mutationFn, hlen]
  · simp [mutationFn, hlen]

/-- Witness for C4 at a concrete input. -/
theorem contractWrite_executes_once_witness :
    sampleCalls ≠ [] ∧
    (mutationFn (some sampleAccount) (some sampleCalls) none none =
      ([⟨sampleCalls, none, none⟩], .ok (sampleAccount.execute sampleCalls none none)) ∧
    ((mutationFn (some sampleAccount) (some sampleCalls) none none).1 ++
      (mutationFn (some sampleAccount) (some sampleCalls) none none).1).length = 2) :=
  ⟨by decide, contractWrite_executes_once sampleAccount sampleCalls none none (by decide)⟩

/-- C9: the mutation key is a pure, deterministic function of its inputs:
two key computations agree exactly when the inputs (account, calls, abis,
options) agree — identical inputs always yield the identical key, and the
key depends on nothing but those inputs. -/
theorem mutationKey_deterministic (a₁ a₂ : Option AccountInterface)
    (c₁ c₂ : Option (List Call)) (b₁ b₂ : Option (List String))
    (o₁ o₂ : Option InvocationsDetails) :
    mutationKey a₁ c₁ b₁ o₁ = mutationKey a₂ c₂ b₂ o₂ ↔
      a₁ = a₂ ∧ c₁ = c₂ ∧ b₁ = b₂ ∧ o₁ = o₂ := by
  simp [mutationKey, MutationKeyEntry.mk.injEq]

/-- C10: `useBalance` with the token argument omitted issues the contract
read against the chain's native ETH token contract — the address resolved via
`ethByChainId(library.chainId)` — with entrypoint `balanceOf` and arguments
`[address]`; the watch flag defaults to `false`, and with the address present
the fetch is indeed issued. -/
theorem useBalance_default_token (ethByChainId : String → String)
    (library : StarknetLibrary) (address : String) (fetch : ContractReadArgs → Nat) :
    (useBalanceReadArgs ethByChainId library (some address) none).address
        = ethByChainId library.chainId ∧
    (useBalanceReadArgs ethByChainId library (some address) none).functionName
        = "balanceOf" ∧
    (useBalanceReadArgs ethByChainId library (some address) none).args = [some address] ∧
    (useBalanceReadArgs ethByChainId library (some address) none).watch = false ∧
    (useBalance ethByChainId library (some address) none fetch).fetchIssued = true :=
  ⟨rfl, rfl, rfl, rfl, rfl⟩

/-- C5: `useBalance` invoked while the address is not available issues no
fetch and its query status remains idle, with no data. -/
theorem useBalance_idle_without_address {α : Type} (ethByChainId : String → String)
    (library : StarknetLibrary) (token : Option String) (watch : Bool)
    (fetch : ContractReadArgs → α) :
    (useBalance ethByChainId library none token fetch watch).status = .idle ∧
    (useBalance ethByChainId library none token fetch watch).fetchIssued = false ∧
    (useBalance ethByChainId library none token fetch watch).data = none :=
  ⟨rfl, rfl, rfl⟩

/-- C7: calling `switchNetwork` through `useSwitchNetwork` when the active
connector does not implement the capability yields an explicit
UnsupportedOperationError — the function is present on the hook result, not
silently absent, and it fails when called. -/
theorem switchNetwork_unsupported_fails (c : Connector) (chainId : String)
    (h : c.supportsSwitchNetwork = false) :
    ∃ f, useSwitchNetwork (some c) = some f ∧
      f chainId = .error .unsupportedOperation := by
  refine ⟨fun cid => c.switchNetwork cid, rfl, ?_⟩
  simp [Connector.switchNetwork, h]

/-- Witness for C7 at a concrete connector without the capability. -/
theorem switchNetwork_unsupported_fails_witness :
    (Connector.mk ("argentX") ("Argent") false).supportsSwitchNetwork = false ∧
    ∃ f, useSwitchNetwork (some (Connector.mk ("argentX") ("Argent") false)) = some f ∧
      f sampleChainId = .error .unsupportedOperation :=
  ⟨rfl, switchNetwork_unsupported_fails (Connector.mk ("argentX") ("Argent") false)
    sampleChainId rfl⟩

/-- C8: `reset()` on a mutation invocation is idempotent — after one or two
consecutive resets the state is the same, with status idle and data and error
cleared; `reset` is total, so the second call cannot throw. -/
theorem mutationReset_idempotent {α : Type} (s : MutationState α) :
    s.reset.reset = s.reset ∧
    s.reset.status = .idle ∧ s.reset.reset.status = .idle ∧
    s.reset.data = none ∧ s.reset.error = none ∧
    s.reset.reset.data = none ∧ s.reset.reset.error = none :=
  ⟨rfl, rfl, rfl, rfl, rfl, rfl, rfl⟩

/-- Issuing a fetch marks the key in flight, so it no longer needs a fetch. -/
theorem needsFetch_issueFetch {α : Type} (s : QueryCache α) (key : String) :
    needsFetch (issueFetch s key) key = false := by
  simp [needsFetch, issueFetch]

/-- Issuing a fetch logs exactly one more network call for the key. -/
theorem fetchCount_issueFetch {α : Type} (s : QueryCache α) (key : String) :
    fetchCount (issueFetch s key) key = fetchCount s key + 1 := by
  simp [fetchCount, issueFetch, List.filter_cons]

/-- C2: when the entry for a key is stale or absent, two concurrent
`getOrFetch` calls for that key make exactly one network fetch between them —
the second call leaves the cache state untouched — and after the shared fetch
completes, any two observers of the key read the same result. -/
theorem queryCache_dedup {α : Type} (s : QueryCache α) (key : String)
    (h : needsFetch s key = true) :
    fetchCount (getOrFetch (getOrFetch s key) key) key = fetchCount s key + 1 ∧
    getOrFetch (getOrFetch s key) key = getOrFetch s key ∧
    ∀ fid (v : α) (o₁ o₂ : Nat),
      observerRead (complete (getOrFetch (getOrFetch s key) key) key fid (.ok v)) key o₁ =
        observerRead (complete (getOrFetch (getOrFetch s key) key) key fid (.ok v)) key o₂ := by
  have h1 : getOrFetch s key = issueFetch s key := by simp [getOrFetch, h]
  have h2 : getOrFetch (issueFetch s key) key = issueFetch s key := by
    simp [getOrFetch, needsFetch_issueFetch]
  refine ⟨?_, ?_, ?_⟩
  · rw [h1, h2]
    exact fetchCount_issueFetch s key
  · rw [h1, h2]
  · intro fid v o₁ o₂
    rfl

/-- Witness for C2: on an empty cache the entry is absent, and the dedup
property holds at the concrete key, with the observer conjunct instantiated
at two distinct observers. -/
theorem queryCache_dedup_witness :
    needsFetch sampleCache sampleKey = true ∧
    fetchCount (getOrFetch (getOrFetch sampleCache sampleKey) sampleKey) sampleKey
        = fetchCount sampleCache sampleKey + 1 ∧
    getOrFetch (getOrFetch sampleCache sampleKey) sampleKey
        = getOrFetch sampleCache sampleKey ∧
    observerRead (complete (getOrFetch (getOrFetch sampleCache sampleKey) sampleKey)
        sampleKey 0 (.ok 7)) sampleKey 0 =
      observerRead (complete (getOrFetch (getOrFetch sampleCache sampleKey) sampleKey)
        sampleKey 0 (.ok 7)) sampleKey 1 :=
  ⟨rfl, (queryCache_dedup sampleCache sampleKey rfl).1,
    (queryCache_dedup sampleCache sampleKey rfl).2.1,
    (queryCache_dedup sampleCache sampleKey rfl).2.2 0 7 0 1⟩

/-- C3: for a given key, when fetch A is issued (by a `refetch`) and then
fetch B is issued before A resolves, the final cached value is B's result in
both completion orders — the late-arriving response of the superseded fetch A
never overwrites B's result. -/
theorem queryCache_completion_ordering {α : Type} (s : QueryCache α) (key : String)
    (vA vB : α) :
    observerRead (complete (complete (refetch (refetch s key) key) key
        ((refetch s key).nextFetchId) (.ok vB)) key s.nextFetchId (.ok vA)) key 0
      = some vB ∧
    observerRead (complete (complete (refetch (refetch s key) key) key
        s.nextFetchId (.ok vA)) key ((refetch s key).nextFetchId) (.ok vB)) key 0
      = some vB := by
  constructor
  · simp [refetch, issueFetch, complete, observerRead]
  · simp [refetch, issueFetch, complete, observerRead]

/-- The retry loop makes at most one attempt more than its remaining fuel. -/
theorem runRetry_attempts_le {α : Type} (retryOn : Bool)
    (responses : Nat → Except FetchError α) :
    ∀ (fuel attempt : Nat) (delays : List Nat),
      (runRetry retryOn responses fuel attempt delays).2.1 ≤ attempt + 1 + fuel := by
  intro fuel
  induction fuel with
  | zero =>
    intro attempt delays
    cases hr : responses attempt <;> simp [runRetry, hr]
  | succ f ih =>
    intro attempt delays
    cases hr : responses attempt with
    | ok v =>
      have hv : runRetry retryOn responses (f + 1) attempt delays
          = (.ok v, attempt + 1, delays.reverse) := by
        simp [runRetry, hr]
      rw [hv]
      show attempt + 1 ≤ attempt + 1 + (f + 1)
      omega
    | error e =>
      by_cases hc : (retryOn && retryable e) = true
      · have hv : runRetry retryOn responses (f + 1) attempt delays
            = runRetry retryOn responses f (attempt + 1) (backoffDelay attempt :: delays) := by
          simp [runRetry, hr, hc]
        rw [hv]
        have hrec := ih (attempt + 1) (backoffDelay attempt :: delays)
        omega
      · have hv : runRetry retryOn responses (f + 1) attempt delays
            = (.error e, attempt + 1, delays.reverse) := by
          simp [runRetry, hr, hc]
        rw [hv]
        show attempt + 1 ≤ attempt + 1 + (f + 1)
        omega

/-- A first attempt that fails with RejectedError is never retried: the run
settles immediately with that error, one attempt, no backoff delay. -/
theorem fetchWithRetry_rejected {α : Type} (responses : Nat → Except FetchError α)
    (maxAttempts : Nat) (h : responses 0 = .error .rejected) :
    fetchWithRetry true maxAttempts responses = (.error .rejected, 1, []) := by
  unfold fetchWithRetry
  cases hm : maxAttempts - 1 with
  | zero => simp [runRetry, h]
  | succ f => simp [runRetry, h, retryable]

/-- If the first `n` attempts fail with retryable errors and attempt `n`
succeeds within the fuel bound, the retry loop returns the success after
`n` retries, waiting the exponential backoff delays in order. -/
theorem runRetry_ok_after {α : Type} (responses : Nat → Except FetchError α) (v : α) :
    ∀ (n fuel attempt : Nat) (delays : List Nat),
      (∀ k, k < n → ∃ e, responses (attempt + k) = .error e ∧ retryable e = true) →
      responses (attempt + n) = .ok v → n ≤ fuel →
      runRetry true responses fuel attempt delays =
        (.ok v, attempt + n + 1,
          delays.reverse ++ (List.range n).map (fun k => backoffDelay (attempt + k))) := by
  intro n
  induction n with
  | zero =>
    intro fuel attempt delays _ hok _
    rw [Nat.add_zero] at hok
    cases fuel <;> simp [runRetry, hok]
  | succ m ih =>
    intro fuel attempt delays hfail hok hle
    obtain ⟨e, he, hre⟩ := hfail 0 (Nat.succ_pos m)
    rw [Nat.add_zero] at he
    obtain ⟨f, rfl⟩ : ∃ f, fuel = f + 1 := ⟨fuel - 1, by omega⟩
    have hstep : runRetry true responses (f + 1) attempt delays =
        runRetry true responses f (attempt + 1) (backoffDelay attempt :: delays) := by
      simp [runRetry, he, hre]
    have hfail2 : ∀ k, k < m →
        ∃ e2, responses (attempt + 1 + k) = .error e2 ∧ retryable e2 = true := by
      intro k hk
      have hk2 := hfail (k + 1) (by omega)
      rwa [show attempt + (k + 1) = attempt + 1 + k by omega] at hk2
    have hok2 : responses (attempt + 1 + m) = .ok v := by
      rwa [show attempt + (m + 1) = attempt + 1 + m by omega] at hok
    rw [hstep, ih f (attempt + 1) (backoffDelay attempt :: delays) hfail2 hok2 (by omega)]
    have hfun : (fun k => backoffDelay (attempt + 1 + k))
        = ((fun k => backoffDelay (attempt + k)) ∘ Nat.succ) := by
      funext k
      show backoffDelay (attempt + 1 + k) = backoffDelay (attempt + Nat.succ k)
      congr 1
      omega
    refine congrArg (Prod.mk _) (congrArg₂ Prod.mk (by omega) ?_)
    rw [List.reverse_cons, List.append_assoc, List.range_succ_eq_map]
    simp only [List.map_cons, List.map_map, Nat.add_zero, List.singleton_append]
    rw [hfun]

/-- C6: with retry on, a fetch makes a bounded number of attempts; a first
attempt rejected by the chain (RejectedError) is surfaced as-is with no
retry and no backoff wait; transient failures (NetworkError, NotFoundError)
are retried, and a run whose first `n` attempts fail transiently and then
succeeds performs exactly `n + 1` attempts with the exponential backoff
delays 1s, 2s, 4s, … (capped at 30s); NetworkError and NotFoundError are the
retryable errors, RejectedError is not. -/
theorem retryPolicy_behaviour {α : Type} (responses : Nat → Except FetchError α)
    (maxAttempts n : Nat) (v : α) :
    ((fetchWithRetry true maxAttempts responses).2.1 ≤ max maxAttempts 1) ∧
    (responses 0 = .error .rejected →
      fetchWithRetry true maxAttempts responses = (.error .rejected, 1, [])) ∧
    ((∀ k, k < n → ∃ e, responses k = .error e ∧ retryable e = true) →
      responses n = .ok v → n + 1 ≤ maxAttempts →
      fetchWithRetry true maxAttempts responses =
        (.ok v, n + 1, (List.range n).map backoffDelay)) ∧
    (∀ k, backoffDelay k = min (1000 * 2 ^ k) 30000) ∧
    retryable .network = true ∧ retryable .notFound = true ∧
    retryable .rejected = false := by
  refine ⟨?_, ?_, ?_, fun k => rfl, rfl, rfl, rfl⟩
  · have hle := runRetry_attempts_le true responses (maxAttempts - 1) 0 []
    unfold fetchWithRetry
    omega
  · intro h
    exact fetchWithRetry_rejected responses maxAttempts h
  · intro hfail hok hcap
    have hfail0 : ∀ k, k < n → ∃ e, responses (0 + k) = .error e ∧ retryable e = true := by
      intro k hk
      rw [Nat.zero_add]
      exact hfail k hk
    have hok0 : responses (0 + n) = .ok v := by
      rw [Nat.zero_add]
      exact hok
    have hrun := runRetry_ok_after responses v n (maxAttempts - 1) 0 [] hfail0 hok0 (by omega)
    unfold fetchWithRetry
    rw [hrun]
    simp [Nat.zero_add]

/-- Witness for C6: a rejected first attempt settles immediately; two
transient failures (network, then not-found) followed by success give three
attempts with backoff delays 1000ms and 2000ms; the schedule is 1s, 2s, 4s,
capped at 30s. -/
theorem retryPolicy_behaviour_witness :
    (fetchWithRetry true 3 transientResponses).2.1 ≤ max 3 1 ∧
    fetchWithRetry true 3 rejectedResponses = (.error .rejected, 1, []) ∧
    fetchWithRetry true 3 transientResponses = (.ok 42, 3, [1000, 2000]) ∧
    backoffDelay 0 = 1000 ∧ backoffDelay 1 = 2000 ∧ backoffDelay 2 = 4000 ∧
    backoffDelay 6 = 30000 := by
  have htransient := (retryPolicy_behaviour transientResponses 3 2 42).2.2.1
    (by
      intro k hk
      interval_cases k
      · exact ⟨.network, rfl, rfl⟩
      · exact ⟨.notFound, rfl, rfl⟩)
    rfl (by omega)
  refine ⟨(retryPolicy_behaviour transientResponses 3 2 42).1,
    (retryPolicy_behaviour rejectedResponses 3 0 0).2.1 rfl, ?_, by decide, by decide,
    by decide, by decide⟩
  rw [htransient]
  rfl
